import Mathlib

/-!
# Verification of the cgp-dss-data-loader standard loader

A shallow embedding of the data model and operations of
`loader/standard_loader.py` and `loader/base_loader.py`
(ucsc-cgp/cgp-dss-data-loader), together with theorems settling the
specification claims about them.

JSON-like Python values are modelled by `PyVal`; the Python exceptions
relevant to the loader's control flow by `PyErr`.  Each Lean definition is a
direct translation of the corresponding Python function (same branch
structure, same exception behaviour); the uploading side effects, which are
network I/O, are abstracted by oracle parameters or effect traces.
-/

namespace CgpLoader

/-- Model of the JSON-like Python values the loader manipulates. -/
inductive PyVal : Type where
  | str : String → PyVal
  | int : Int → PyVal
  | list : List PyVal → PyVal
  | dict : List (String × PyVal) → PyVal

/-- The Python exceptions relevant to the loader's control flow.
`parseError` is `standard_loader.ParseError`; the others are builtins. -/
inductive PyErr : Type where
  | parseError
  | keyError
  | typeError
  | indexError
  | attributeError
deriving Repr, DecidableEq

mutual

/-- Python equality `==` on modelled values. -/
def pyBeq : PyVal → PyVal → Bool
  | .str a, .str b => a == b
  | .int a, .int b => a == b
  | .list a, .list b => pyBeqList a b
  | .dict a, .dict b => pyBeqDict a b
  | _, _ => false

/-- Elementwise Python equality of lists. -/
def pyBeqList : List PyVal → List PyVal → Bool
  | [], [] => true
  | a :: as, b :: bs => pyBeq a b && pyBeqList as bs
  | _, _ => false

/-- Entrywise Python equality of dicts (as ordered association lists). -/
def pyBeqDict : List (String × PyVal) → List (String × PyVal) → Bool
  | [], [] => true
  | (k, a) :: as, (j, b) :: bs => k == j && pyBeq a b && pyBeqDict as bs
  | _, _ => false

end

/-- Whether `needle` is a prefix of `hay`. -/
def charsPrefix : List Char → List Char → Bool
  | [], _ => true
  | _ :: _, [] => false
  | a :: as, b :: bs => a == b && charsPrefix as bs

/-- Whether `needle` occurs as a contiguous substring of `hay`
(Python `needle in hay` on strings). -/
def charsSubstr (needle : List Char) : List Char → Bool
  | [] => needle.isEmpty
  | c :: rest => charsPrefix needle (c :: rest) || charsSubstr needle rest

/-- First-match lookup in an association list; Python dictionaries have
unique keys, for which this coincides with dict lookup. -/
def lookupKey : List (String × PyVal) → String → Option PyVal
  | [], _ => none
  | (k, v) :: rest, key => if k = key then some v else lookupKey rest key

/-- Python list subscription `l[i]`, including negative indices. -/
def listGet (l : List PyVal) (i : Int) : Except PyErr PyVal :=
  let j : Int := if i < 0 then i + l.length else i
  if 0 ≤ j ∧ j < l.length then .ok (l.getD j.toNat (.int 0))
  else .error .indexError

/-- Python subscription `v[key]` with its exception behaviour:
`KeyError` for a missing dict key, `TypeError` for unsubscriptable values
or wrongly-typed keys, `IndexError` for an out-of-range list index. -/
def PyVal.getItem : PyVal → PyVal → Except PyErr PyVal
  | .dict d, .str k =>
      match lookupKey d k with
      | some v => .ok v
      | none => .error .keyError
  | .dict _, .int _ => .error .keyError
  | .dict _, _ => .error .typeError
  | .list l, .int i => listGet l i
  | .list _, _ => .error .typeError
  | .str s, .int i =>
      match listGet (s.data.map (fun c => .str (String.mk [c]))) i with
      | .ok v => .ok v
      | .error _ => .error .indexError
  | .str _, _ => .error .typeError
  | .int _, _ => .error .typeError

/-- Python `key in v` for a string `key`: key membership for dicts,
substring test for strings, element membership for lists. -/
def PyVal.containsStr : PyVal → String → Except PyErr Bool
  | .dict d, k => .ok (lookupKey d k).isSome
  | .str s, k => .ok (charsSubstr k.data s.data)
  | .list l, k => .ok (l.any (fun v => pyBeq v (.str k)))
  | .int _, _ => .error .typeError

/-- Python `len(v)`. -/
def PyVal.pyLen : PyVal → Except PyErr Int
  | .str s => .ok s.length
  | .list l => .ok l.length
  | .dict d => .ok d.length
  | .int _ => .error .typeError

/-- Python iteration `for x in v`: keys for dicts, elements for lists,
one-character strings for strings. -/
def PyVal.pyIter : PyVal → Except PyErr (List PyVal)
  | .str s => .ok (s.data.map (fun c => .str (String.mk [c])))
  | .list l => .ok l
  | .dict d => .ok (d.map (fun kv => .str kv.1))
  | .int _ => .error .typeError

/-! ## The UUID regex and `re.findall`

`StandardFormatBundleUploader._uuid_regex` is the fixed-width pattern
`[0-9a-f]{8}-[0-9a-f]{4}-[0-9a-f]{4}-[0-9a-f]{4}-[0-9a-f]{12}` (36
characters).  `findall` scans left to right for non-overlapping matches;
because the pattern has fixed width the scan below is exactly its
semantics: try the current position, on a match emit 36 characters and
resume after them, otherwise advance one character. -/

/-- Lower-case hexadecimal digit, the character class `[0-9a-f]`. -/
def isHexDigit (c : Char) : Bool :=
  ('0' ≤ c && c ≤ '9') || ('a' ≤ c && c ≤ 'f')

/-- Consume `n` characters satisfying `p`, returning the rest. -/
def charRun (p : Char → Bool) : Nat → List Char → Option (List Char)
  | 0, cs => some cs
  | n + 1, c :: cs => if p c then charRun p n cs else none
  | _ + 1, [] => none

/-- Consume one expected character, returning the rest. -/
def expectChar (c : Char) : List Char → Option (List Char)
  | d :: rest => if d = c then some rest else none
  | [] => none

/-- Whether the 36-character UUID pattern matches at the head of `cs`. -/
def matchesUuidHead (cs : List Char) : Bool :=
  (do
    let cs ← charRun isHexDigit 8 cs
    let cs ← expectChar '-' cs
    let cs ← charRun isHexDigit 4 cs
    let cs ← expectChar '-' cs
    let cs ← charRun isHexDigit 4 cs
    let cs ← expectChar '-' cs
    let cs ← charRun isHexDigit 4 cs
    let cs ← expectChar '-' cs
    let _ ← charRun isHexDigit 12 cs
    some ()).isSome

/-- The `findall` scan with a skip counter: with counter `0` it tries the
pattern at the current position and, on a match, emits the 36 characters
and skips past them (one character now, 35 via the counter); otherwise it
advances one character.  The counter makes the recursion structural in
the character list, so the scan evaluates by `rfl`/`decide`. -/
def uuidScan : Nat → List Char → List String
  | _, [] => []
  | k + 1, _ :: cs => uuidScan k cs
  | 0, c :: cs =>
    if matchesUuidHead (c :: cs) then
      String.mk (List.take 36 (c :: cs)) :: uuidScan 35 cs
    else
      uuidScan 0 cs

/-- The scan `_uuid_regex.findall`: all non-overlapping matches, left to right. -/
def uuidFindall (l : List Char) : List String := uuidScan 0 l

/-- Python `str.lower` on the ASCII range (the loader's guids and the UUID
pattern are ASCII). -/
def pyLowerChar (c : Char) : Char :=
  if 'A' ≤ c && c ≤ 'Z' then Char.ofNat (c.toNat + 32) else c

/-- Python `str.lower` (ASCII). -/
def pyLower (s : String) : String :=
  String.mk (s.data.map pyLowerChar)

/-! ## The RFC 3339 regex

`StandardFormatBundleUploader._rfc3339_regex`, used with `fullmatch`:
`^(\d{4})-(0[1-9]|1[0-2])-(0[1-9]|[12][0-9]|3[01])`
`T([01][0-9]|2[0-3]):([0-5][0-9]):([0-5][0-9]|60)`
`(\.[0-9]+)?(Z|(\+|-)([01][0-9]|2[0-3]):([0-5][0-9]))?$`
Each alternation is decided by the first character(s), and both optional
groups start with characters no later alternative can consume, so the
deterministic recognizer below is equivalent to the backtracking regex. -/

/-- ASCII decimal digit `[0-9]`. -/
def isDigit (c : Char) : Bool := '0' ≤ c && c ≤ '9'

/-- Consume two characters jointly satisfying `p`. -/
def matchTwo (p : Char → Char → Bool) : List Char → Option (List Char)
  | a :: b :: rest => if p a b then some rest else none
  | _ => none

/-- Character class `0[1-9]|1[0-2]`. -/
def monthOk (a b : Char) : Bool :=
  (a = '0' && '1' ≤ b && b ≤ '9') || (a = '1' && '0' ≤ b && b ≤ '2')

/-- Character class `0[1-9]|[12][0-9]|3[01]`. -/
def mdayOk (a b : Char) : Bool :=
  (a = '0' && '1' ≤ b && b ≤ '9') || ((a = '1' || a = '2') && isDigit b) ||
    (a = '3' && (b = '0' || b = '1'))

/-- Character class `[01][0-9]|2[0-3]`. -/
def hourOk (a b : Char) : Bool :=
  ((a = '0' || a = '1') && isDigit b) || (a = '2' && '0' ≤ b && b ≤ '3')

/-- Character class `[0-5][0-9]`. -/
def minuteOk (a b : Char) : Bool :=
  '0' ≤ a && a ≤ '5' && isDigit b

/-- Character class `[0-5][0-9]|60`. -/
def secondOk (a b : Char) : Bool :=
  minuteOk a b || (a = '6' && b = '0')

/-- The optional fractional seconds `(\.[0-9]+)?`, greedy. -/
def secfrac : List Char → Option (List Char)
  | '.' :: rest =>
      if (rest.takeWhile isDigit).isEmpty then none
      else some (rest.dropWhile isDigit)
  | cs => some cs

/-- The optional timezone `(Z|(\+|-)([01][0-9]|2[0-3]):([0-5][0-9]))?`. -/
def tzOffset : List Char → Option (List Char)
  | 'Z' :: rest => some rest
  | c :: rest =>
      if c = '+' || c = '-' then do
        let rest ← matchTwo hourOk rest
        let rest ← expectChar ':' rest
        matchTwo minuteOk rest
      else some (c :: rest)
  | [] => some []

/-- Whether `_rfc3339_regex.fullmatch(s)` is not `None`. -/
def rfc3339Fullmatch (s : String) : Bool :=
  (do
    let cs := s.data
    let cs ← charRun isDigit 4 cs
    let cs ← expectChar '-' cs
    let cs ← matchTwo monthOk cs
    let cs ← expectChar '-' cs
    let cs ← matchTwo mdayOk cs
    let cs ← expectChar 'T' cs
    let cs ← matchTwo hourOk cs
    let cs ← expectChar ':' cs
    let cs ← matchTwo minuteOk cs
    let cs ← expectChar ':' cs
    let cs ← matchTwo secondOk cs
    let cs ← secfrac cs
    let cs ← tzOffset cs
    if cs.isEmpty then some () else none).isSome

/-! ## `StandardFormatBundleUploader` -/

/-- Model of `StandardFormatBundleUploader._get_file_uuid` for a string guid.
`findall` never returns `None`, so the `is None` check in the source is
dead; a match count other than one raises `ParseError`. -/
def get_file_uuid (file_guid : String) : Except PyErr String :=
  let result := uuidFindall (pyLower file_guid).data
  if result.length ≠ 1 then .error .parseError
  else .ok (result.getD 0 "")

/-- Wrapper for `_get_file_uuid` as called on an arbitrary iteration element: a
non-string guid has no `.lower()` attribute (uncaught `AttributeError`). -/
def get_file_uuid_val : PyVal → Except PyErr String
  | .str s => get_file_uuid s
  | _ => .error .attributeError

/-- The inner `parse_version_key` of `_get_file_version`: `None` for a
missing key or a present but non-RFC-3339 string; `re.fullmatch` on a
non-string value raises `TypeError` (not caught by the `except KeyError`). -/
def parse_version_key (file_info : PyVal) (key : String) :
    Except PyErr (Option String) :=
  match file_info.getItem (.str key) with
  | .error .keyError => .ok none
  | .error e => .error e
  | .ok (.str s) => .ok (if rfc3339Fullmatch s then some s else none)
  | .ok _ => .error .typeError

/-- Model of `StandardFormatBundleUploader._get_file_version`: prefer `updated`,
fall back to `created`, `ParseError` when neither yields a value. -/
def get_file_version (file_info : PyVal) : Except PyErr String := do
  let v ← parse_version_key file_info "updated"
  let version ← match v with
    | some v => pure (some v)
    | none => parse_version_key file_info "created"
  match version with
  | some v => pure v
  | none => throw .parseError

/-- The `for url in urls` membership-check loop of `_get_cloud_urls`. -/
def check_urls_entries : List PyVal → Except PyErr Unit
  | [] => .ok ()
  | url :: rest => do
    let c ← url.containsStr "url"
    if !c then throw PyErr.parseError else check_urls_entries rest

/-- The list comprehension `[url_dict['url'] for url_dict in urls]`. -/
def extract_urls : List PyVal → Except PyErr (List PyVal)
  | [] => .ok []
  | url_dict :: rest => do
    let u ← url_dict.getItem (.str "url")
    let us ← extract_urls rest
    pure (u :: us)

/-- Model of `StandardFormatBundleUploader._get_cloud_urls`: requires a non-empty
`urls` list whose every entry contains `'url'`; returns the list of
`url` values (the source returns a Python list comprehension). -/
def get_cloud_urls (file_info : PyVal) : Except PyErr (List PyVal) := do
  let has ← file_info.containsStr "urls"
  if !has then throw .parseError
  else do
    let urls ← file_info.getItem (.str "urls")
    let n ← urls.pyLen
    if n < 1 then throw .parseError
    else do
      let elems ← urls.pyIter
      let _ ← check_urls_entries elems
      extract_urls elems

/-- Model of `standard_loader.ParsedDataFile`. -/
structure ParsedDataFile where
  filename : PyVal
  file_uuid : String
  cloud_urls : List PyVal
  bundle_uuid : PyVal
  file_guid : PyVal
  file_version : String

/-- Model of `standard_loader.ParsedBundle`. -/
structure ParsedBundle where
  bundle_uuid : PyVal
  metadata_dict : PyVal
  data_files : List ParsedDataFile

/-- The header extraction of `_parse_bundle` (its first `try` block):
`KeyError` is converted to `ParseError`, anything else (e.g. `TypeError`
from subscripting a non-dict bundle) propagates. -/
def parse_bundle_header (bundle : PyVal) :
    Except PyErr (PyVal × PyVal × PyVal) :=
  let raw : Except PyErr (PyVal × PyVal × PyVal) := do
    let data_bundle ← bundle.getItem (.str "data_bundle")
    let bundle_uuid ← data_bundle.getItem (.str "id")
    let metadata_dict ← data_bundle.getItem (.str "user_metadata")
    let data_objects ← bundle.getItem (.str "data_objects")
    pure (bundle_uuid, metadata_dict, data_objects)
  match raw with
  | .error .keyError => .error .parseError
  | r => r

/-- The body of the per-file loop of `_parse_bundle`.  The source reads
`except TypeError or KeyError`, and in Python `TypeError or KeyError`
evaluates to `TypeError`: only `TypeError` is converted to `ParseError`,
while a `KeyError` (e.g. a file-info dict without `'name'`) propagates. -/
def parse_data_file (bundle_uuid data_objects file_guid : PyVal) :
    Except PyErr ParsedDataFile := do
  let looked : Except PyErr (PyVal × PyVal) := do
    let file_info ← data_objects.getItem file_guid
    let filename ← file_info.getItem (.str "name")
    pure (file_info, filename)
  match looked with
  | .error .typeError => throw .parseError
  | .error e => throw e
  | .ok (file_info, filename) => do
    let file_uuid ← get_file_uuid_val file_guid
    let file_version ← get_file_version file_info
    let cloud_urls ← get_cloud_urls file_info
    pure ⟨filename, file_uuid, cloud_urls, bundle_uuid, file_guid, file_version⟩

/-- Model of `StandardFormatBundleUploader._parse_bundle`. -/
def parse_bundle (bundle : PyVal) : Except PyErr ParsedBundle := do
  let (bundle_uuid, metadata_dict, data_objects) ← parse_bundle_header bundle
  let guids ← data_objects.pyIter
  let parsed_files ← guids.mapM (parse_data_file bundle_uuid data_objects)
  pure ⟨bundle_uuid, metadata_dict, parsed_files⟩

/-- The four bundle lists held by a `StandardFormatBundleUploader`. -/
structure LoaderState where
  bundles_parsed : List ParsedBundle
  bundles_failed_unparsed : List PyVal
  bundles_loaded : List ParsedBundle
  bundles_failed_parsed : List ParsedBundle

/-- The state of a freshly constructed uploader: four empty lists. -/
def LoaderState.init : LoaderState := ⟨[], [], [], []⟩

/-- The per-bundle loop of `_parse_all_bundles`: `ParseError` is caught
and the raw bundle recorded in `bundles_failed_unparsed`; any other
exception aborts the loop, leaving the mutations made so far in place. -/
def parse_all_bundles_loop (st : LoaderState) :
    List PyVal → LoaderState × Option PyErr
  | [] => (st, none)
  | b :: rest =>
    match parse_bundle b with
    | .ok pb =>
        parse_all_bundles_loop
          { st with bundles_parsed := st.bundles_parsed ++ [pb] } rest
    | .error .parseError =>
        parse_all_bundles_loop
          { st with bundles_failed_unparsed := st.bundles_failed_unparsed ++ [b] } rest
    | .error e => (st, some e)

/-- Model of `StandardFormatBundleUploader._parse_all_bundles`: a non-list input
raises `ParseError` immediately. -/
def parse_all_bundles (st : LoaderState) (input_json : PyVal) :
    LoaderState × Option PyErr :=
  match input_json with
  | .list bs => parse_all_bundles_loop st bs
  | _ => (st, some .parseError)

/-- Model of `StandardFormatBundleUploader._load_parsed_bundles`: every exception
from `_load_bundle` is caught (`except Exception`), so the loop always
completes; the actual uploading is network I/O, abstracted by the
`loadOk` oracle deciding which bundles load successfully. -/
def load_parsed_bundles (loadOk : ParsedBundle → Bool) (st : LoaderState) :
    LoaderState :=
  st.bundles_parsed.foldl
    (fun s pb =>
      if loadOk pb then { s with bundles_loaded := s.bundles_loaded ++ [pb] }
      else { s with bundles_failed_parsed := s.bundles_failed_parsed ++ [pb] })
    st

/-- The quantity `bundles_unattempted` as computed in the `finally` block of
`load_all_bundles` (plain Python int arithmetic, so an `Int`). -/
def unattemptedOf (n : Int) (st : LoaderState) : Int :=
  n - st.bundles_failed_unparsed.length - st.bundles_failed_parsed.length
    - st.bundles_loaded.length

/-- The success flag computed by the `finally` block of
`load_all_bundles`: it starts `True` and each of the three conditions
(`if bundles_unattempted:`, nonempty failure lists) forces it `False`. -/
def finalSuccess (n : Int) (st : LoaderState) : Bool :=
  let s := true
  let s := if unattemptedOf n st ≠ 0 then false else s
  let s := if st.bundles_failed_unparsed.length > 0 then false else s
  if st.bundles_failed_parsed.length > 0 then false else s

/-- Model of `StandardFormatBundleUploader.load_all_bundles` (sequential path) on a
fresh uploader.  `len(input_json)` is evaluated before the `try` block, so
an un-sized input raises; inside the `try`, an exception escaping the
parse phase skips the load phase, and the `return success` inside the
`finally` block discards any in-flight exception, so the call always
returns the computed flag. -/
def load_all_bundles (loadOk : ParsedBundle → Bool) (input_json : PyVal) :
    Except PyErr (Bool × LoaderState) := do
  let n ← input_json.pyLen
  let (st1, err) := parse_all_bundles LoaderState.init input_json
  let st2 := match err with
    | none => load_parsed_bundles loadOk st1
    | some _ => st1
  pure (finalSuccess n st2, st2)

/-! ## The per-bundle load sequence (`_load_bundle`)

`_load_bundle` performs network calls in a fixed order: one metadata-file
upload (`MetadataFileUploader.load_dict`), one by-reference upload per
data file (`DssUploader.upload_cloud_file_by_reference`), then one bundle
registration (`DssUploader.load_bundle`).  The calls themselves are
network I/O, abstracted by a `DssStub` whose `none`/`false` results stand
for a raised exception; the model records the attempted calls as a trace
of `UploadEvent`s. -/

/-- One attempted remote call made by `_load_bundle`. -/
inductive UploadEvent where
  | uploadMetadataFile
  | uploadDataFileByRef (file_uuid : String)
  | registerBundle
deriving Repr, DecidableEq

/-- Oracle for the remote calls of `_load_bundle`: `loadDictResult` is the
`(uuid, version, filename, already_present)` quadruple from the metadata
upload, `uploadFileResult` the quadruple from a data-file upload,
`registerOk` whether `load_bundle` succeeds; `none`/`false` model a raised
exception. -/
structure DssStub where
  loadDictResult : Option (String × String × String × Bool)
  uploadFileResult : ParsedDataFile → Option (String × String × String × Bool)
  registerOk : Bool

/-- The data-file loop of `_load_bundle`: upload files in order, stopping
at the first failure. -/
def upload_data_files (dss : DssStub) : List ParsedDataFile → List UploadEvent × Bool
  | [] => ([], true)
  | f :: rest =>
    match dss.uploadFileResult f with
    | none => ([.uploadDataFileByRef f.file_uuid], false)
    | some _ =>
      let (evs, ok) := upload_data_files dss rest
      (.uploadDataFileByRef f.file_uuid :: evs, ok)

/-- Model of `StandardFormatBundleUploader._load_bundle` as a trace of attempted
remote calls plus a success flag (`true` iff no call raised). -/
def load_bundle_run (dss : DssStub) (pb : ParsedBundle) :
    List UploadEvent × Bool :=
  match dss.loadDictResult with
  | none => ([.uploadMetadataFile], false)
  | some _ =>
    let (evs, ok) := upload_data_files dss pb.data_files
    if ok then
      (.uploadMetadataFile :: evs ++ [.registerBundle], dss.registerOk)
    else
      (.uploadMetadataFile :: evs, false)

/-! ## `DssUploader.upload_cloud_file_by_reference` (by-reference upload)

The `base_loader.py` under `src/` is an older revision returning a
three-element tuple; its callers under `src/` (`standard_loader.py` line
147, `tests/test_standard_loader.py` line 310) unpack four values and the
tests import a `FileURLError` it does not define, and the specification
(its "Open question" note) states it adopts the later four-tuple revision
as canonical.  That revision is not under `src/`, so its result shape and
idempotence are modelled from the spec. -/

/-- The set of file UUIDs already registered in the DSS. -/
structure DssRegistry where
  registered_files : List String
deriving Repr, DecidableEq

/-- Modelled from the spec: the four-tuple revision of
`DssUploader.upload_cloud_file_by_reference`, missing from `src/` (only
its callers and tests are there).  Per the spec it returns
`(fileUuid, fileVersion, filename, alreadyPresent)`, where
`alreadyPresent` signals the file with this UUID was already registered
in the DSS and the upload was a no-op (idempotent re-load); a fresh UUID
is registered and reported `alreadyPresent = false`. -/
def upload_cloud_file_by_reference (st : DssRegistry)
    (filename file_uuid : String) (cloud_urls : List String)
    (bundle_uuid guid : String) (file_version : String) :
    (String × String × String × Bool) × DssRegistry :=
  if file_uuid ∈ st.registered_files then
    ((file_uuid, file_version, filename, true), st)
  else
    ((file_uuid, file_version, filename, false),
     { st with registered_files := file_uuid :: st.registered_files })

/-! ## Network effects of the by-reference upload under `dry_run`

The `src/` revision of `upload_cloud_file_by_reference` only logs when
`dry_run` is set and then proceeds: `_create_file_reference` probes the
metadata of every given cloud URL (`head_object` for `s3`, a blob lookup
for `gs`), `upload_dict_as_file` writes a temp file and calls
`upload_local_file`, whose `_upload_local_file_to_staging` →
`upload_to_cloud` uploads to the staging bucket unconditionally; only
`_upload_tagged_cloud_file_to_dss` returns early on `dry_run`, before the
DSS `put_file` request.  The model records the network calls in order;
`dssRest` abstracts the response-dependent calls after `put_file`
(the async-copy `head_file` polling). -/

/-- One network call made by the by-reference upload path. -/
inductive NetEffect where
  | s3HeadObject (bucket key : String)
  | gsGetBlob (bucket key : String)
  | stagingUpload (staging_bucket : String)
  | dssPutFile (file_uuid : String)
deriving Repr, DecidableEq

/-- Model of `urllib.parse.urlparse` restricted to what `_create_file_reference`
reads: `(scheme, netloc, path)` for URLs of the shape
`scheme://netloc/path` (the loader's `s3://`/`gs://`/`https://` inputs). -/
def urlparse3 (s : String) : String × String × String :=
  let cs := s.data
  if cs.contains ':' then
    let scheme := cs.takeWhile (fun c => c ≠ ':')
    let rest := (cs.dropWhile (fun c => c ≠ ':')).drop 1
    match rest with
    | '/' :: '/' :: more =>
      (String.mk scheme, String.mk (more.takeWhile (fun c => c ≠ '/')),
       String.mk (more.dropWhile (fun c => c ≠ '/')))
    | _ => (String.mk scheme, "", String.mk rest)
  else ("", "", s)

/-- The metadata probe for one cloud URL in `_create_file_reference`:
`bucket = url.netloc`, `key = url.path[1:]`; an unsupported scheme only
logs a warning. -/
def probe_effect (cloud_url : String) : List NetEffect :=
  let (scheme, netloc, path) := urlparse3 cloud_url
  let key := String.mk (path.data.drop 1)
  if scheme = "s3" then [.s3HeadObject netloc key]
  else if scheme = "gs" then [.gsGetBlob netloc key]
  else []

/-- The network calls of `_create_file_reference`, in URL order. -/
def create_file_reference_effects (file_cloud_urls : List String) :
    List NetEffect :=
  file_cloud_urls.foldr (fun u acc => probe_effect u ++ acc) []

/-- The network calls of the `src/` revision of
`upload_cloud_file_by_reference`: per-URL metadata probes, the staging
upload (both unconditional), then — unless `dry_run` — the DSS `put_file`
request followed by the response-dependent calls `dssRest`. -/
def upload_by_reference_effects (dry_run : Bool) (staging_bucket : String)
    (file_cloud_urls : List String) (file_uuid : String)
    (dssRest : List NetEffect) : List NetEffect :=
  create_file_reference_effects file_cloud_urls
    ++ [NetEffect.stagingUpload staging_bucket]
    ++ (if dry_run then [] else NetEffect.dssPutFile file_uuid :: dssRest)

/-! ## `run_statistical_test` (topmed analysis functions)

`dcp_analysis_functions.run_statistical_test` maps each key of its input
dict to `scipy.stats.ranksums(values['Healthy'], values[key]).pvalue`,
except the key `'Healthy'` itself which gets `-1`.  The input dict is an
association list with (dict-invariant) distinct keys; `scipy`'s
two-sided Wilcoxon rank-sum p-value is external library code, abstracted
by the `ranksumsPvalue` parameter. -/

/-- First-match lookup among the value lists, `KeyError` when absent. -/
def lookupValues (values : List (String × List ℚ)) (k : String) :
    Except PyErr (List ℚ) :=
  match values.find? (fun kv => kv.1 = k) with
  | some kv => .ok kv.2
  | none => .error .keyError

/-- The dict-building `for disease in values` loop of
`run_statistical_test`: `values` is the full input dict the loop reads,
the last argument the entries still to visit. -/
def pvalue_entries (ranksumsPvalue : List ℚ → List ℚ → ℚ)
    (values : List (String × List ℚ)) :
    List (String × List ℚ) → Except PyErr (List (String × ℚ))
  | [] => .ok []
  | kv :: rest => do
    let entry ←
      if kv.1 ≠ "Healthy" then do
        let healthy ← lookupValues values "Healthy"
        let disease ← lookupValues values kv.1
        pure (kv.1, ranksumsPvalue healthy disease)
      else
        pure (kv.1, (-1 : ℚ))
    let out ← pvalue_entries ranksumsPvalue values rest
    pure (entry :: out)

/-- Model of `run_statistical_test`: for each group key, `-1` for `'Healthy'` and
the rank-sum p-value against the `'Healthy'` group otherwise. -/
def run_statistical_test (ranksumsPvalue : List ℚ → List ℚ → ℚ)
    (values : List (String × List ℚ)) : Except PyErr (List (String × ℚ)) :=
  pvalue_entries ranksumsPvalue values values

/-! ## Statement vocabulary and concrete fixtures -/

/-- The field `key` of `file_info`, viewed as an optional string: `some s`
when subscripting yields the string `s`, `none` when it raises `KeyError`. -/
def strField (fi : PyVal) (key : String) : Option String → Prop
  | some s => fi.getItem (.str key) = .ok (.str s)
  | none => fi.getItem (.str key) = .error .keyError

/-- An optional version candidate that yields no usable value: either
absent, or present but not RFC 3339 (the code treats both alike). -/
def unusableVersion (o : Option String) : Prop :=
  ∀ s, o = some s → rfc3339Fullmatch s = false

/-- The `'Healthy'` entry of the input dict of `run_statistical_test`
(`[]` when absent; the theorems assume presence, as the code otherwise
raises `KeyError`). -/
def healthyValues (values : List (String × List ℚ)) : List ℚ :=
  ((values.find? (fun kv => kv.1 = "Healthy")).map Prod.snd).getD []

/-- A bundle whose single file-info object lacks `'name'` but is otherwise
complete. -/
def bundleMissingName : PyVal :=
  .dict [("data_bundle", .dict [("id", .str "b1"), ("user_metadata", .dict [])]),
         ("data_objects", .dict [("887388d7-a974-4259-86af-f5305172363d",
            .dict [("created", .str "2018-05-04T12:00:00Z"),
                   ("urls", .list [.dict [("url", .str "s3://x/y")]])])])]

/-- A well-formed bundle. -/
def wellFormedBundle : PyVal :=
  .dict [("data_bundle", .dict [("id", .str "b2"), ("user_metadata", .dict [])]),
         ("data_objects", .dict [("dg.405/11111111-2222-3333-4444-555555555555",
            .dict [("name", .str "map"),
                   ("created", .str "2018-05-04T12:00:00Z"),
                   ("urls", .list [.dict [("url", .str "s3://x/y")]])])])]

/-! # Theorems

### The `findall` scan, positionally -/

theorem uuidScan_skip (cs : List Char) : ∀ k, uuidScan k cs = uuidScan 0 (cs.drop k) := by
  induction cs with
  | nil => intro k; cases k <;> rfl
  | cons c cs ih =>
    intro k
    cases k with
    | zero => rfl
    | succ k => simpa only [uuidScan, List.drop_succ_cons] using ih k

theorem uuidFindall_cons (c : Char) (cs : List Char) :
    uuidFindall (c :: cs) =
      if matchesUuidHead (c :: cs) then
        String.mk (List.take 36 (c :: cs)) :: uuidFindall (List.drop 35 cs)
      else uuidFindall cs := by
  unfold uuidFindall
  by_cases h : matchesUuidHead (c :: cs) = true
  · simp only [uuidScan, h, if_pos, uuidScan_skip cs 35]
  · simp only [uuidScan, h, if_neg, Bool.false_eq_true, if_false]

theorem matchesUuidHead_drop_of_le (cs : List Char) (p : Nat) (h : cs.length ≤ p) :
    matchesUuidHead (cs.drop p) = false := by
  rw [List.drop_eq_nil_of_le h]
  rfl

theorem uuidFindall_ne_nil_of_match (cs : List Char) :
    ∀ p, matchesUuidHead (cs.drop p) = true → uuidFindall cs ≠ [] := by
  induction cs with
  | nil =>
    intro p h
    rw [List.drop_nil] at h
    exact absurd h (by decide)
  | cons c cs ih =>
    intro p h
    rw [uuidFindall_cons]
    by_cases hm : matchesUuidHead (c :: cs) = true
    · simp [hm]
    · rw [if_neg hm]
      cases p with
      | zero => rw [List.drop_zero] at h; exact absurd h hm
      | succ p => exact ih p (by simpa only [List.drop_succ_cons] using h)

theorem uuidFindall_eq_nil (cs : List Char) :
    (∀ p, matchesUuidHead (cs.drop p) = false) → uuidFindall cs = [] := by
  induction cs with
  | nil => intro _; rfl
  | cons c cs ih =>
    intro h
    have h0 : matchesUuidHead (c :: cs) = false := by simpa using h 0
    rw [uuidFindall_cons, if_neg (by simp [h0])]
    exact ih fun p => by simpa only [List.drop_succ_cons] using h (p + 1)

theorem uuidFindall_single (cs : List Char) :
    ∀ p, matchesUuidHead (cs.drop p) = true →
      (∀ q, q ≠ p → matchesUuidHead (cs.drop q) = false) →
      uuidFindall cs = [String.mk (List.take 36 (cs.drop p))] := by
  induction cs with
  | nil =>
    intro p h _
    rw [List.drop_nil] at h
    exact absurd h (by decide)
  | cons c cs ih =>
    intro p h huniq
    rw [uuidFindall_cons]
    cases p with
    | zero =>
      rw [List.drop_zero] at h ⊢
      rw [if_pos h]
      have hrest : uuidFindall (cs.drop 35) = [] := by
        apply uuidFindall_eq_nil
        intro r
        have h36 : matchesUuidHead ((c :: cs).drop (36 + r)) = false :=
          huniq (36 + r) (by omega)
        have heq : (c :: cs).drop (36 + r) = (cs.drop 35).drop r := by
          rw [List.drop_drop]
          conv_lhs => rw [show 36 + r = (r + 35) + 1 by omega]
          rw [List.drop_succ_cons, Nat.add_comm]
        rw [heq] at h36
        exact h36
      rw [hrest]
    | succ p =>
      have h0 : matchesUuidHead (c :: cs) = false := by
        simpa using huniq 0 (by omega)
      rw [if_neg (by simp [h0]), List.drop_succ_cons]
      rw [List.drop_succ_cons] at h
      exact ih p h fun q hq => by
        simpa only [List.drop_succ_cons] using huniq (q + 1) (by omega)

theorem two_le_uuidFindall_length (cs : List Char) :
    ∀ p q, p + 36 ≤ q → matchesUuidHead (cs.drop p) = true →
      matchesUuidHead (cs.drop q) = true → 2 ≤ (uuidFindall cs).length := by
  induction cs with
  | nil =>
    intro p q _ h _
    rw [List.drop_nil] at h
    exact absurd h (by decide)
  | cons c cs ih =>
    intro p q hpq hp hq
    rw [uuidFindall_cons]
    by_cases hm : matchesUuidHead (c :: cs) = true
    · rw [if_pos hm]
      have hne : uuidFindall (cs.drop 35) ≠ [] := by
        apply uuidFindall_ne_nil_of_match (cs.drop 35) (q - 36)
        have heq : (cs.drop 35).drop (q - 36) = (c :: cs).drop q := by
          rw [List.drop_drop]
          conv_rhs => rw [show q = (q - 36 + 35) + 1 by omega]
          rw [List.drop_succ_cons, Nat.add_comm]
        rw [heq]
        exact hq
      have : 0 < (uuidFindall (cs.drop 35)).length := List.length_pos.mpr hne
      simp only [List.length_cons]
      omega
    · rw [if_neg hm]
      cases p with
      | zero => rw [List.drop_zero] at hp; exact absurd hp hm
      | succ p =>
        cases q with
        | zero => omega
        | succ q =>
          rw [List.drop_succ_cons] at hp hq
          exact ih p q (by omega) hp hq

/-! ### C5: `_get_file_uuid` -/

/-- Claim C5 (counterexample). The claim says the unique embedded UUID is
returned *unchanged*; but `_get_file_uuid` lowercases the guid before
matching, so the guid `"887388D7-A974-4259-86AF-F5305172363D"` — which
contains exactly one case-insensitive match of the UUID pattern, namely
itself — is returned in lowercase, not unchanged. -/
theorem get_file_uuid_uppercase :
    get_file_uuid "887388D7-A974-4259-86AF-F5305172363D" =
      .ok "887388d7-a974-4259-86af-f5305172363d" ∧
    "887388d7-a974-4259-86af-f5305172363d" ≠
      "887388D7-A974-4259-86AF-F5305172363D" :=
  ⟨rfl, by decide⟩

/-- Claim C5 (amended). For every file guid string: when no position of the
lowercased guid matches the UUID pattern, `_get_file_uuid` raises
`ParseError`; when exactly one position matches, it returns that
36-character match — the embedded UUID converted to lowercase (hence a
bare lowercase UUID yields itself and `dg.4056/<uuid>` yields `<uuid>`);
and when two disjoint positions match, it raises `ParseError`. -/
theorem get_file_uuid_spec (guid : String) :
    ((∀ p < (pyLower guid).data.length,
        matchesUuidHead ((pyLower guid).data.drop p) = false) →
      get_file_uuid guid = .error .parseError) ∧
    (∀ p, matchesUuidHead ((pyLower guid).data.drop p) = true →
      (∀ q < (pyLower guid).data.length, q ≠ p →
        matchesUuidHead ((pyLower guid).data.drop q) = false) →
      get_file_uuid guid =
        .ok (String.mk (List.take 36 ((pyLower guid).data.drop p)))) ∧
    (∀ p q, p + 36 ≤ q → matchesUuidHead ((pyLower guid).data.drop p) = true →
      matchesUuidHead ((pyLower guid).data.drop q) = true →
      get_file_uuid guid = .error .parseError) := by
  refine ⟨?_, ?_, ?_⟩
  · intro h
    have hnil : uuidFindall (pyLower guid).data = [] := by
      apply uuidFindall_eq_nil
      intro p
      by_cases hp : p < (pyLower guid).data.length
      · exact h p hp
      · exact matchesUuidHead_drop_of_le _ p (by omega)
    simp [get_file_uuid, hnil]
  · intro p hp huniq
    have hone : uuidFindall (pyLower guid).data =
        [String.mk (List.take 36 ((pyLower guid).data.drop p))] := by
      apply uuidFindall_single _ p hp
      intro q hq
      by_cases hql : q < (pyLower guid).data.length
      · exact huniq q hql hq
      · exact matchesUuidHead_drop_of_le _ q (by omega)
    simp [get_file_uuid, hone]
  · intro p q hpq hp hq
    have h2 := two_le_uuidFindall_length (pyLower guid).data p q hpq hp hq
    rw [get_file_uuid, if_pos (by omega)]

/-- Claim C5 (witness): the amended theorem applied to the guid
`dg.4056/887388d7-a974-4259-86af-f5305172363d`, whose single match is at
position 8. -/
theorem get_file_uuid_spec_witness :
    get_file_uuid "dg.4056/887388d7-a974-4259-86af-f5305172363d" =
      .ok "887388d7-a974-4259-86af-f5305172363d" := by
  have h := (get_file_uuid_spec "dg.4056/887388d7-a974-4259-86af-f5305172363d").2.1
    8 (by decide) (by decide)
  rw [h]
  exact congrArg Except.ok (by decide)

/-! ### C4: `_get_file_version` -/

theorem parse_version_key_eq (fi : PyVal) (key : String) (o : Option String)
    (h : strField fi key o) :
    parse_version_key fi key =
      .ok (o.bind fun s => if rfc3339Fullmatch s then some s else none) := by
  cases o with
  | some s => unfold strField at h; simp [parse_version_key, h]
  | none => unfold strField at h; simp [parse_version_key, h]

/-- Claim C4. For every file-info dict (described through its optional
string fields `updated` and `created`): `_get_file_version` returns
`updated` when it matches the RFC 3339 pattern; otherwise returns
`created` when that matches; a value present but not matching is treated
exactly as an absent one; and when neither yields a match it raises
`ParseError`. -/
theorem get_file_version_spec (fi : PyVal) (u c : Option String)
    (hu : strField fi "updated" u) (hc : strField fi "created" c) :
    (∀ s, u = some s → rfc3339Fullmatch s = true → get_file_version fi = .ok s) ∧
    (unusableVersion u → ∀ t, c = some t → rfc3339Fullmatch t = true →
      get_file_version fi = .ok t) ∧
    (unusableVersion u → unusableVersion c →
      get_file_version fi = .error .parseError) := by
  have hpu := parse_version_key_eq fi "updated" u hu
  have hpc := parse_version_key_eq fi "created" c hc
  refine ⟨?_, ?_, ?_⟩
  · intro s hs hr
    subst hs
    simp only [get_file_version, hpu, Option.some_bind, hr, if_pos]
    rfl
  · intro hun t ht hr
    subst ht
    have hu' : (u.bind fun s => if rfc3339Fullmatch s then some s else none)
        = none := by
      cases u with
      | none => rfl
      | some s => simp [hun s rfl]
    simp only [get_file_version, hpu, hpc, hu', Option.some_bind, hr, if_pos]
    rfl
  · intro hun hcn
    have hu' : (u.bind fun s => if rfc3339Fullmatch s then some s else none)
        = none := by
      cases u with
      | none => rfl
      | some s => simp [hun s rfl]
    have hc' : (c.bind fun s => if rfc3339Fullmatch s then some s else none)
        = none := by
      cases c with
      | none => rfl
      | some s => simp [hcn s rfl]
    simp only [get_file_version, hpu, hpc, hu', hc']
    rfl

/-- Claim C4 (witness): on `{updated: "not rfc", created:
"2018-05-04T12:00:00Z"}` an invalid `updated` falls back to `created`. -/
theorem get_file_version_spec_witness :
    get_file_version (.dict [("updated", .str "not rfc"),
      ("created", .str "2018-05-04T12:00:00Z")]) =
      .ok "2018-05-04T12:00:00Z" :=
  (get_file_version_spec _ (some "not rfc") (some "2018-05-04T12:00:00Z")
      (by unfold strField; rfl) (by unfold strField; rfl)).2.1
    (fun s hs => by cases hs; decide) "2018-05-04T12:00:00Z" rfl (by decide)

/-! ### C7: `_get_cloud_urls` -/

theorem check_urls_entries_err (l : List PyVal)
    (hall : ∀ e ∈ l, ∃ b, e.containsStr "url" = .ok b)
    (hex : ∃ e ∈ l, e.containsStr "url" = .ok false) :
    check_urls_entries l = .error .parseError := by
  induction l with
  | nil => obtain ⟨e, he, _⟩ := hex; cases he
  | cons a l ih =>
    obtain ⟨b, hb⟩ := hall a (List.mem_cons_self a l)
    cases b with
    | false => simp only [check_urls_entries, hb]; rfl
    | true =>
      obtain ⟨e, he, hef⟩ := hex
      rcases List.mem_cons.mp he with rfl | hel
      · rw [hb] at hef; cases hef
      · have := ih (fun x hx => hall x (List.mem_cons_of_mem a hx)) ⟨e, hel, hef⟩
        simp only [check_urls_entries, hb, this]; rfl

/-- Claim C7. `_get_cloud_urls` raises `ParseError` when `urls` is absent,
when the `urls` list is empty, or when some entry's `'url' in entry` check
is `False` (which covers both a `{…}` entry without the key and the
string `"not a dict"`); and on `{urls: [{url: "s3://a/beautiful/url"}]}`
it succeeds with exactly that URL. -/
theorem get_cloud_urls_spec :
    (∀ d, lookupKey d "urls" = none →
      get_cloud_urls (.dict d) = .error .parseError) ∧
    (∀ d, lookupKey d "urls" = some (.list []) →
      get_cloud_urls (.dict d) = .error .parseError) ∧
    (∀ d l, lookupKey d "urls" = some (.list l) →
      (∀ e ∈ l, ∃ b, e.containsStr "url" = .ok b) →
      (∃ e ∈ l, e.containsStr "url" = .ok false) →
      get_cloud_urls (.dict d) = .error .parseError) ∧
    get_cloud_urls (.dict [("urls", .list [.str "not a dict"])]) =
      .error .parseError ∧
    get_cloud_urls (.dict [("urls", .list [.dict [("url",
          .str "s3://a/beautiful/url")]])]) =
      .ok [.str "s3://a/beautiful/url"] := by
  refine ⟨?_, ?_, ?_, by rfl, by rfl⟩
  · intro d h
    simp only [get_cloud_urls, PyVal.containsStr, h, Option.isSome_none]
    rfl
  · intro d h
    simp only [get_cloud_urls, PyVal.containsStr, h, Option.isSome_some,
      PyVal.getItem, PyVal.pyLen]
    rfl
  · intro d l h hall hex
    have hne : l ≠ [] := by
      rintro rfl
      obtain ⟨e, he, _⟩ := hex
      cases he
    have hlen : ¬((l.length : Int) < 1) := by
      have := List.length_pos.mpr hne
      omega
    have hchk := check_urls_entries_err l hall hex
    have hform : get_cloud_urls (.dict d) =
        (if ((l.length : Int) < 1) then Except.error .parseError
         else do
           let _ ← check_urls_entries l
           extract_urls l) := by
      simp only [get_cloud_urls, PyVal.containsStr, h, Option.isSome_some,
        PyVal.getItem, PyVal.pyLen, PyVal.pyIter]
      rfl
    rw [hform, if_neg hlen, hchk]
    rfl

/-- Claim C7 (witness): the entry-missing-`url` conjunct applied to the
string entry `"not a dict"`. -/
theorem get_cloud_urls_spec_witness :
    get_cloud_urls (.dict [("b", .int 0), ("urls", .list [.str "not a dict"])]) =
      .error .parseError :=
  get_cloud_urls_spec.2.2.1 _ [.str "not a dict"] rfl
    (fun e he => by
      rw [List.mem_singleton] at he
      subst he
      exact ⟨false, rfl⟩)
    ⟨.str "not a dict", List.mem_singleton.mpr rfl, rfl⟩

/-! ### C1: `load_all_bundles` accounting -/

theorem finalSuccess_iff (n : Int) (st : LoaderState) :
    finalSuccess n st = true ↔
      st.bundles_failed_parsed = [] ∧ st.bundles_failed_unparsed = [] ∧
        unattemptedOf n st = 0 := by
  simp only [finalSuccess]
  constructor
  · intro h
    by_cases h1 : unattemptedOf n st ≠ 0 <;>
      by_cases h2 : st.bundles_failed_unparsed.length > 0 <;>
        by_cases h3 : st.bundles_failed_parsed.length > 0 <;>
          simp [h1, h2, h3] at h ⊢ <;>
            first
              | exact ⟨List.length_eq_zero.mp (by omega),
                  List.length_eq_zero.mp (by omega), by omega⟩
              | skip
  · rintro ⟨h1, h2, h3⟩
    simp [h1, h2, h3]

/-- Claim C1. For every input list of `N` bundles and every load outcome:
`load_all_bundles` returns normally with a final state `st` satisfying
`len(loaded) + len(failed_parsed) + len(failed_unparsed) + unattempted
= N` (with `unattempted` computed as `N` minus the three lengths), and
the returned flag is `true` iff both failure lists are empty and
`unattempted = 0`. -/
theorem load_all_bundles_accounting (loadOk : ParsedBundle → Bool)
    (bs : List PyVal) :
    ∃ success st, load_all_bundles loadOk (.list bs) = .ok (success, st) ∧
      ((st.bundles_loaded.length + st.bundles_failed_parsed.length +
          st.bundles_failed_unparsed.length : Int) +
        unattemptedOf bs.length st = bs.length) ∧
      (success = true ↔
        st.bundles_failed_parsed = [] ∧ st.bundles_failed_unparsed = [] ∧
          unattemptedOf bs.length st = 0) := by
  refine ⟨_, _, rfl, ?_, ?_⟩
  · simp only [unattemptedOf]
    omega
  · exact finalSuccess_iff _ _

/-! ### C10: the `finally` block swallows in-flight exceptions -/

/-- Claim C10. `load_all_bundles` never propagates the `ParseError` raised
for a non-list input (nor any other exception escaping the parse/load
phase): the `return success` inside the `finally` clause discards it.  A
dict input returns the flag normally — `False` when non-empty (its
entries count as unattempted), `True` when empty — an empty list returns
`True`, and every list input returns a flag rather than raising. -/
theorem load_all_bundles_swallows (loadOk : ParsedBundle → Bool) :
    (∀ d, load_all_bundles loadOk (.dict d) = .ok (d.isEmpty, LoaderState.init)) ∧
    load_all_bundles loadOk (.dict [("a", .int 1)]) = .ok (false, LoaderState.init) ∧
    load_all_bundles loadOk (.dict []) = .ok (true, LoaderState.init) ∧
    load_all_bundles loadOk (.list []) = .ok (true, LoaderState.init) ∧
    (∀ bs, ∃ r, load_all_bundles loadOk (.list bs) = .ok r) := by
  refine ⟨?_, by rfl, by rfl, by rfl, fun bs => ⟨_, rfl⟩⟩
  intro d
  cases d with
  | nil => rfl
  | cons kv d =>
    have hne : unattemptedOf ((kv :: d).length : Int) LoaderState.init ≠ 0 := by
      unfold unattemptedOf LoaderState.init
      simp only [List.length_nil, List.length_cons]
      push_cast
      omega
    have hfs : finalSuccess ((kv :: d).length : Int) LoaderState.init = false := by
      show (if unattemptedOf ((kv :: d).length : Int) LoaderState.init ≠ 0
          then false else true) = false
      rw [if_pos hne]
    show Except.ok (finalSuccess ((kv :: d).length : Int) LoaderState.init,
      LoaderState.init) = _
    rw [hfs]
    rfl

/-! ### C3: a file-info without `'name'` aborts instead of being recorded -/

/-- Claim C3 (the claim is right, the code has a slip).  The spec says a
missing `name` is a per-bundle parse failure: recorded in
`bundles_failed_unparsed`, siblings still processed.  The code's
`except TypeError or KeyError` evaluates to `except TypeError`, so the
`KeyError` from `file_info['name']` escapes `_parse_bundle` and
`_parse_all_bundles`, aborting the parse loop; `load_all_bundles` then
returns `False` from its `finally` block with the bundle *not* recorded
and the sibling bundle never attempted (final state still empty). -/
theorem missing_name_aborts_run (loadOk : ParsedBundle → Bool) :
    parse_bundle bundleMissingName = .error .keyError ∧
    (parse_bundle wellFormedBundle).isOk = true ∧
    load_all_bundles loadOk (.list [bundleMissingName, wellFormedBundle]) =
      .ok (false, LoaderState.init) :=
  ⟨rfl, rfl, rfl⟩

/-! ### C8: ordering of the per-bundle remote calls -/

theorem upload_data_files_ok (dss : DssStub) :
    ∀ files evs, upload_data_files dss files = (evs, true) →
      evs = files.map (fun f => UploadEvent.uploadDataFileByRef f.file_uuid) := by
  intro files
  induction files with
  | nil =>
    intro evs h
    simp only [upload_data_files] at h
    injection h with h1 h2
    subst h1
    rfl
  | cons f rest ih =>
    intro evs h
    unfold upload_data_files at h
    cases hr : dss.uploadFileResult f with
    | none => rw [hr] at h; injection h with h1 h2; cases h2
    | some v =>
      rw [hr] at h
      rcases hp : upload_data_files dss rest with ⟨evs', ok'⟩
      rw [hp] at h
      injection h with h1 h2
      subst h1
      subst h2
      rw [List.map_cons, ih evs' hp]

theorem upload_data_files_no_register (dss : DssStub) :
    ∀ files evs ok, upload_data_files dss files = (evs, ok) →
      UploadEvent.registerBundle ∉ evs := by
  intro files
  induction files with
  | nil =>
    intro evs ok h
    simp only [upload_data_files] at h
    injection h with h1 h2
    subst h1
    simp
  | cons f rest ih =>
    intro evs ok h
    unfold upload_data_files at h
    cases hr : dss.uploadFileResult f with
    | none =>
      rw [hr] at h
      injection h with h1 h2
      subst h1
      simp
    | some v =>
      rw [hr] at h
      rcases hp : upload_data_files dss rest with ⟨evs', ok'⟩
      rw [hp] at h
      injection h with h1 h2
      subst h1
      simp only [List.mem_cons, not_or]
      exact ⟨by simp, ih evs' ok' hp⟩

/-- Claim C8. In every successful `_load_bundle` run the trace is exactly:
the metadata-file upload, then the data-file uploads in order, then the
bundle registration; moreover whenever a registration call occurs at all
(even in failing runs) the trace has that same shape, so a bundle is
never registered before its metadata file and all of its data files have
been uploaded. -/
theorem load_bundle_order (dss : DssStub) (pb : ParsedBundle)
    (tr : List UploadEvent) (ok : Bool)
    (h : load_bundle_run dss pb = (tr, ok)) :
    (ok = true →
      tr = UploadEvent.uploadMetadataFile ::
        pb.data_files.map (fun f => UploadEvent.uploadDataFileByRef f.file_uuid)
          ++ [UploadEvent.registerBundle]) ∧
    (UploadEvent.registerBundle ∈ tr →
      tr = UploadEvent.uploadMetadataFile ::
        pb.data_files.map (fun f => UploadEvent.uploadDataFileByRef f.file_uuid)
          ++ [UploadEvent.registerBundle]) := by
  unfold load_bundle_run at h
  cases hm : dss.loadDictResult with
  | none =>
    rw [hm] at h
    injection h with h1 h2
    subst h1
    subst h2
    refine ⟨fun hk => ?_, fun hk => ?_⟩
    · cases hk
    · simp at hk
  | some v =>
    rw [hm] at h
    rcases hp : upload_data_files dss pb.data_files with ⟨evs, fok⟩
    rw [hp] at h
    cases fok with
    | true =>
      dsimp only at h
      injection h with h1 h2
      subst h1
      subst h2
      have he := upload_data_files_ok dss pb.data_files evs hp
      subst he
      exact ⟨fun _ => rfl, fun _ => rfl⟩
    | false =>
      dsimp only at h
      injection h with h1 h2
      subst h1
      subst h2
      refine ⟨fun hk => ?_, fun hk => ?_⟩
      · cases hk
      · rcases List.mem_cons.mp hk with hk | hk
        · cases hk
        · exact absurd hk
            (upload_data_files_no_register dss pb.data_files evs false hp)

/-- Claim C8 (witness): a one-file bundle with an all-succeeding uploader. -/
theorem load_bundle_order_witness :
    [UploadEvent.uploadMetadataFile, UploadEvent.uploadDataFileByRef "u1",
        UploadEvent.registerBundle] =
      UploadEvent.uploadMetadataFile ::
        [(⟨.str "f", "u1", [.str "s3://x/y"], .str "b", .str "g",
            "2018-05-04T12:00:00Z"⟩ : ParsedDataFile)].map
          (fun f => UploadEvent.uploadDataFileByRef f.file_uuid)
          ++ [UploadEvent.registerBundle] :=
  (load_bundle_order
    ⟨some ("mu", "mv", "metadata.json", false),
      fun _ => some ("u1", "v1", "f", false), true⟩
    ⟨.str "b", .dict [],
      [⟨.str "f", "u1", [.str "s3://x/y"], .str "b", .str "g",
        "2018-05-04T12:00:00Z"⟩]⟩
    [UploadEvent.uploadMetadataFile, UploadEvent.uploadDataFileByRef "u1",
      UploadEvent.registerBundle] true rfl).1 rfl

/-! ### C2: idempotent by-reference re-upload -/

/-- Claim C2 (spec-modelled; see `upload_cloud_file_by_reference`).  A call
returns the four-tuple `(fileUuid, fileVersion, filename, alreadyPresent)`;
for a file UUID not yet registered the first call returns
`alreadyPresent = false` and registers it, and a repeated call with the
same arguments returns `alreadyPresent = true`, leaves the registry
unchanged, and raises no duplicate-registration error (the model is
total). -/
theorem upload_by_reference_idempotent (st : DssRegistry)
    (filename file_uuid : String) (cloud_urls : List String)
    (bundle_uuid guid file_version : String)
    (h : file_uuid ∉ st.registered_files) :
    ∃ st', upload_cloud_file_by_reference st filename file_uuid cloud_urls
        bundle_uuid guid file_version =
        ((file_uuid, file_version, filename, false), st') ∧
      upload_cloud_file_by_reference st' filename file_uuid cloud_urls
        bundle_uuid guid file_version =
        ((file_uuid, file_version, filename, true), st') := by
  refine ⟨{ st with registered_files := file_uuid :: st.registered_files },
    ?_, ?_⟩
  · unfold upload_cloud_file_by_reference
    rw [if_neg h]
  · unfold upload_cloud_file_by_reference
    rw [if_pos (List.mem_cons_self _ _)]

/-- Claim C2 (witness): a fresh registry. -/
theorem upload_by_reference_idempotent_witness :
    ∃ st', upload_cloud_file_by_reference ⟨[]⟩ "f.bam"
        "887388d7-a974-4259-86af-f5305172363d" ["s3://x/y"] "b" "g" "v" =
        (("887388d7-a974-4259-86af-f5305172363d", "v", "f.bam", false), st') ∧
      upload_cloud_file_by_reference st' "f.bam"
        "887388d7-a974-4259-86af-f5305172363d" ["s3://x/y"] "b" "g" "v" =
        (("887388d7-a974-4259-86af-f5305172363d", "v", "f.bam", true), st') :=
  upload_by_reference_idempotent ⟨[]⟩ "f.bam"
    "887388d7-a974-4259-86af-f5305172363d" ["s3://x/y"] "b" "g" "v"
    (by simp)

/-! ### C6: dry-run still performs network calls -/

theorem probe_effect_no_put (cloud_url : String) (u : String) :
    NetEffect.dssPutFile u ∉ probe_effect cloud_url := by
  unfold probe_effect
  rcases urlparse3 cloud_url with ⟨scheme, netloc, path⟩
  dsimp only
  split_ifs <;> simp

theorem create_effects_no_put (file_cloud_urls : List String) (u : String) :
    NetEffect.dssPutFile u ∉ create_file_reference_effects file_cloud_urls := by
  induction file_cloud_urls with
  | nil => simp [create_file_reference_effects]
  | cons a rest ih =>
    simp only [create_file_reference_effects, List.foldr_cons, List.mem_append,
      not_or]
    exact ⟨probe_effect_no_put a u, ih⟩

theorem mem_create_effects (file_cloud_urls : List String) (url : String)
    (hu : url ∈ file_cloud_urls) (e : NetEffect) (he : e ∈ probe_effect url) :
    e ∈ create_file_reference_effects file_cloud_urls := by
  induction file_cloud_urls with
  | nil => cases hu
  | cons a rest ih =>
    simp only [create_file_reference_effects, List.foldr_cons, List.mem_append]
    rcases List.mem_cons.mp hu with rfl | hu
    · exact Or.inl he
    · exact Or.inr (ih hu)

/-- Claim C6 (counterexample). The claim says a dry-run
`upload_cloud_file_by_reference` performs no network call; but for the
single URL `s3://a/b` the dry-run trace still contains the S3 metadata
probe and the staging-bucket upload. -/
theorem dry_run_still_calls_network :
    upload_by_reference_effects true "staging" ["s3://a/b"] "u" [] =
      [NetEffect.s3HeadObject "a" "b", NetEffect.stagingUpload "staging"] ∧
    upload_by_reference_effects true "staging" ["s3://a/b"] "u" [] ≠ [] :=
  ⟨rfl, by decide⟩

/-- Claim C6 (amended). In dry-run mode `upload_cloud_file_by_reference`
makes no DSS `put_file` request (it logs and returns before it), but it
still performs the metadata probe of every given cloud URL and the upload
of the file-reference JSON to the staging bucket: the dry-run trace is
exactly the probes followed by the staging upload. -/
theorem dry_run_effects (staging_bucket : String) (urls : List String)
    (file_uuid : String) (dssRest : List NetEffect) :
    upload_by_reference_effects true staging_bucket urls file_uuid dssRest =
      create_file_reference_effects urls
        ++ [NetEffect.stagingUpload staging_bucket] ∧
    (∀ u, NetEffect.dssPutFile u ∉
      upload_by_reference_effects true staging_bucket urls file_uuid dssRest) ∧
    NetEffect.stagingUpload staging_bucket ∈
      upload_by_reference_effects true staging_bucket urls file_uuid dssRest ∧
    (∀ url ∈ urls, ∀ e ∈ probe_effect url,
      e ∈ upload_by_reference_effects true staging_bucket urls file_uuid dssRest) := by
  have hform : upload_by_reference_effects true staging_bucket urls file_uuid
      dssRest = create_file_reference_effects urls
        ++ [NetEffect.stagingUpload staging_bucket] := by
    unfold upload_by_reference_effects
    simp
  refine ⟨hform, ?_, ?_, ?_⟩
  · intro u
    rw [hform]
    simp only [List.mem_append, not_or]
    exact ⟨create_effects_no_put urls u, by simp⟩
  · rw [hform]
    simp
  · intro url hu e he
    rw [hform]
    exact List.mem_append_left _ (mem_create_effects urls url hu e he)

/-- Claim C6 (witness): the amended theorem applied to one `s3://` URL. -/
theorem dry_run_effects_witness :
    NetEffect.s3HeadObject "a" "b" ∈
      upload_by_reference_effects true "staging" ["s3://a/b"] "u" [] :=
  (dry_run_effects "staging" ["s3://a/b"] "u" []).2.2.2 "s3://a/b"
    (List.mem_singleton.mpr rfl) (NetEffect.s3HeadObject "a" "b") (by decide)

/-! ### C9: `run_statistical_test` -/

theorem find_entry_of_nodup (values : List (String × List ℚ))
    (hnd : (values.map Prod.fst).Nodup) (k : String) (v : List ℚ)
    (hm : (k, v) ∈ values) :
    values.find? (fun kv => kv.1 = k) = some (k, v) := by
  induction values with
  | nil => cases hm
  | cons kv rest ih =>
    rcases kv with ⟨k', v'⟩
    simp only [List.map_cons, List.nodup_cons] at hnd
    by_cases hk : k' = k
    · subst hk
      rw [List.find?_cons_of_pos _ (by simp)]
      rcases List.mem_cons.mp hm with h | h
      · rw [h]
      · exact absurd (List.mem_map_of_mem Prod.fst h) hnd.1
    · rw [List.find?_cons_of_neg _ (by simp [hk])]
      rcases List.mem_cons.mp hm with h | h
      · cases h; exact absurd rfl hk
      · exact ih hnd.2 h

theorem lookupValues_of_nodup (values : List (String × List ℚ))
    (hnd : (values.map Prod.fst).Nodup) (k : String) (v : List ℚ)
    (hm : (k, v) ∈ values) : lookupValues values k = .ok v := by
  unfold lookupValues
  rw [find_entry_of_nodup values hnd k v hm]

theorem pvalue_entries_ok (pv : List ℚ → List ℚ → ℚ)
    (values : List (String × List ℚ)) (healthy : List ℚ)
    (hH : lookupValues values "Healthy" = .ok healthy) :
    ∀ l, (∀ kv ∈ l, lookupValues values kv.1 = .ok kv.2) →
      pvalue_entries pv values l = .ok (l.map (fun kv =>
        (kv.1, if kv.1 = "Healthy" then (-1 : ℚ) else pv healthy kv.2))) := by
  intro l
  induction l with
  | nil => intro _; rfl
  | cons kv rest ih =>
    intro h
    have hrest := ih fun x hx => h x (List.mem_cons_of_mem kv hx)
    unfold pvalue_entries
    by_cases hk : kv.1 = "Healthy"
    · rw [if_neg (by simp [hk]), hrest]
      simp [hk]
    · rw [if_pos hk, hH, h kv (List.mem_cons_self kv rest), hrest,
        List.map_cons, if_neg hk]
      rfl

/-- Claim C9. For every input mapping containing the key `"Healthy"` (with
dict-unique keys), `run_statistical_test` succeeds and returns the
mapping over exactly the same keys in which `"Healthy"` is assigned the
sentinel `-1` and every other key the rank-sum p-value between the
`"Healthy"` group's values and that group's values; given that the
(external, abstracted) `scipy.stats.ranksums` p-value lies in `[0, 1]`,
so does every non-`"Healthy"` result. -/
theorem run_statistical_test_spec (pv : List ℚ → List ℚ → ℚ)
    (values : List (String × List ℚ))
    (hnd : (values.map Prod.fst).Nodup)
    (hh : ∃ hv, ("Healthy", hv) ∈ values)
    (hpv : ∀ a b, 0 ≤ pv a b ∧ pv a b ≤ 1) :
    ("Healthy", healthyValues values) ∈ values ∧
    run_statistical_test pv values = .ok (values.map (fun kv =>
      (kv.1, if kv.1 = "Healthy" then (-1 : ℚ)
             else pv (healthyValues values) kv.2))) ∧
    (values.map (fun kv =>
      (kv.1, if kv.1 = "Healthy" then (-1 : ℚ)
             else pv (healthyValues values) kv.2))).map Prod.fst =
      values.map Prod.fst ∧
    (∀ p ∈ values.map (fun kv =>
      (kv.1, if kv.1 = "Healthy" then (-1 : ℚ)
             else pv (healthyValues values) kv.2)),
      p.1 = "Healthy" → p.2 = -1) ∧
    (∀ p ∈ values.map (fun kv =>
      (kv.1, if kv.1 = "Healthy" then (-1 : ℚ)
             else pv (healthyValues values) kv.2)),
      p.1 ≠ "Healthy" → 0 ≤ p.2 ∧ p.2 ≤ 1) := by
  obtain ⟨hv, hm⟩ := hh
  have hfind := find_entry_of_nodup values hnd "Healthy" hv hm
  have hhv : healthyValues values = hv := by
    unfold healthyValues
    rw [hfind]
    rfl
  have hH : lookupValues values "Healthy" = .ok (healthyValues values) := by
    unfold lookupValues
    rw [hfind, hhv]
  refine ⟨hhv ▸ hm, ?_, ?_, ?_, ?_⟩
  · exact pvalue_entries_ok pv values (healthyValues values) hH values
      fun kv hkv => lookupValues_of_nodup values hnd kv.1 kv.2 hkv
  · rw [List.map_map]
    rfl
  · intro p hp h1
    obtain ⟨kv, _, rfl⟩ := List.mem_map.mp hp
    simp only at h1
    simp [h1]
  · intro p hp h1
    obtain ⟨kv, _, rfl⟩ := List.mem_map.mp hp
    simp only at h1 ⊢
    rw [if_neg h1]
    exact hpv (healthyValues values) kv.2

/-- Claim C9 (witness): a two-group input with a constant-`1/2` p-value
function. -/
theorem run_statistical_test_spec_witness :
    run_statistical_test (fun _ _ => (1 : ℚ)/2)
      [("Healthy", [1]), ("Flu", [2])] =
      .ok [("Healthy", -1), ("Flu", 1/2)] := by
  have h := (run_statistical_test_spec (fun _ _ => (1 : ℚ)/2)
    [("Healthy", [1]), ("Flu", [2])] (by decide)
    ⟨[1], List.mem_cons_self _ _⟩
    (fun a b => by norm_num)).2.1
  rw [h]
  norm_num
  decide

end CgpLoader
